import Mathlib

/-!
# Verification of the couchbase store adapter for zotero-sync

Shallow embedding of the Store/Library adapter in `src/index.ts`:
the pure naming helpers, the library registry maintained by
`Store.get` / `Store.remove`, the error-policy control flow of the
mutation methods, the metadata round trip of `Library.save` /
`Library.init`, and the two polling loops of the provisioning helpers
(`createCbCollection`, `createPrimaryIndex`).

External effects of the couchbase driver (whether a create / upsert /
remove / drop call succeeds, what a poll returns, what the clock reads
after a sleep) are inputs of the embedded functions, so every control
path of the source is reachable in the model.
-/

namespace ZoteroCouchbase

/-- Boolean prefix test on character lists, mirroring how a JavaScript
regular-expression alternative (or `String.startsWith`) matches at one
position of the subject string. -/
def startsWithL : List Char → List Char → Bool
  | [], _ => true
  | _ :: _, [] => false
  | p :: ps, c :: cs => p == c && startsWithL ps cs

/-- JavaScript `String.prototype.replace` with a two-alternative regular
expression and the empty replacement string: scan left to right, and at
the first position where one of the two patterns matches (first pattern
tried first, as in `/roups\/|sers\//`), delete that one match and stop. -/
def replaceFirstOfTwo (p1 p2 : List Char) : List Char → List Char
  | [] => []
  | c :: rest =>
    if startsWithL p1 (c :: rest) then (c :: rest).drop p1.length
    else if startsWithL p2 (c :: rest) then (c :: rest).drop p2.length
    else c :: replaceFirstOfTwo p1 p2 rest

/-- JavaScript `String.prototype.replace` with a plain one-character
string pattern and the empty replacement: remove the first occurrence
of the character, and only the first. -/
def removeFirstChar (ch : Char) : List Char → List Char
  | [] => []
  | c :: rest => if c == ch then rest else c :: removeFirstChar ch rest

/-- `Store.createScopeNameFromPrefixImpl` (src/index.ts lines 197-201):
`user_or_group_prefix.replace(/roups\/|sers\//, "").replace("/", "")`. -/
def createScopeNameFromPrefixImpl (s : String) : String :=
  String.mk (removeFirstChar '/'
    (replaceFirstOfTwo "roups/".data "sers/".data s.data))

/-- `Library.getType` (src/index.ts lines 262-264):
`user_or_group_prefix.startsWith("/users") ? "user" : "group"`. -/
def getType ( user_or_group_prefix : String) : String :=
  if startsWithL "/users".data user_or_group_prefix.data then "user" else "group"

theorem removeFirstChar_of_not_mem (ch : Char) (l : List Char) (h : ch ∉ l) :
    removeFirstChar ch l = l := by
  induction l with
  | nil => rfl
  | cons c rest ih =>
    have hc : ¬ (c == ch) = true := by
      simp only [beq_iff_eq]
      intro hceq
      exact h (hceq ▸ List.mem_cons_self c rest)
    have hrest : ch ∉ rest := fun hm => h (List.mem_cons_of_mem c hm)
    simp [removeFirstChar, hc, ih hrest]

theorem data_users_append (id : String) :
    ("users/" ++ id).data = 'u' :: 's' :: 'e' :: 'r' :: 's' :: '/' ::id.data := by
  simp [String.data_append]

theorem data_groups_append (id : String) :
    ("groups/" ++ id).data = 'g' :: 'r' :: 'o' :: 'u' :: 'p' :: 's' :: '/' ::id.data := by
  simp [String.data_append]

/-- C8: the default partition-naming function strips the `users/` /
`groups/` prefix, yielding `u<id>` resp. `g<id>`, for every identifier
whose `<id>` part contains no path separator (in particular every
numeric Zotero user or group id, such as the claim's `12345` and `999`);
after the prefix is stripped no path separator remains, so the final
`replace("/", "")` leaves the name unchanged. -/
theorem createScopeName_default (id : String) (h : '/' ∉ id.data) :
    createScopeNameFromPrefixImpl ("users/" ++ id) = "u" ++ id ∧
    createScopeNameFromPrefixImpl ("groups/" ++ id) = "g" ++ id := by
  constructor
  · apply String.ext
    show (removeFirstChar '/'
      (replaceFirstOfTwo "roups/".data "sers/".data ("users/" ++ id).data)) = _
    rw [data_users_append]
    have h1 : replaceFirstOfTwo "roups/".data "sers/".data
        ('u' :: 's' :: 'e' :: 'r' :: 's' :: '/' ::id.data) = 'u' :: id.data := rfl
    rw [h1]
    have h2 : ('/' : Char) ∉ ('u' :: id.data) := by
      intro hm
      rcases List.mem_cons.mp hm with h3 | h3
      · exact absurd h3.symm (by decide)
      · exact h h3
    rw [removeFirstChar_of_not_mem _ _ h2]
    simp [String.data_append]
  · apply String.ext
    show (removeFirstChar '/'
      (replaceFirstOfTwo "roups/".data "sers/".data ("groups/" ++ id).data)) = _
    rw [data_groups_append]
    have h1 : replaceFirstOfTwo "roups/".data "sers/".data
        ('g' :: 'r' :: 'o' :: 'u' :: 'p' :: 's' :: '/' ::id.data) = 'g' :: id.data := rfl
    rw [h1]
    have h2 : ('/' : Char) ∉ ('g' :: id.data) := by
      intro hm
      rcases List.mem_cons.mp hm with h3 | h3
      · exact absurd h3.symm (by decide)
      · exact h h3
    rw [removeFirstChar_of_not_mem _ _ h2]
    simp [String.data_append]

/-- Witness for C8 at the claim's own examples: `users/12345 ↦ u12345`
and `groups/999 ↦ g999`. -/
theorem createScopeName_default_witness :
    createScopeNameFromPrefixImpl "users/12345" = "u12345" ∧
    createScopeNameFromPrefixImpl "groups/999" = "g999" :=
  ⟨((createScopeName_default "12345" (by decide)).1 :
      createScopeNameFromPrefixImpl ("users/" ++ "12345") = "u" ++ "12345"),
   ((createScopeName_default "999" (by decide)).2 :
      createScopeNameFromPrefixImpl ("groups/" ++ "999") = "g" ++ "999")⟩

/-- C4 counterexample: at the claim's own example input `"users/12345"`
(no leading slash), `getType` returns `"group"`, not `"user"`: the code
tests `startsWith("/users")`, and `"users/12345"` does not begin with
a slash. -/
theorem getType_users_no_slash_counterexample :
    getType "users/12345" = "group" ∧ getType "users/12345" ≠ "user" := by
  constructor
  · rfl
  · intro h
    exact absurd h (by decide)

/-- C4 (amended): `getType` is a pure function of the identifier that
returns `"user"` exactly when the identifier starts with `"/users"`:
for every slash-prefixed user identifier `"/users/<id>"` it returns
`"user"`, for every `"/groups/<id>"` it returns `"group"`, and for the
slash-less forms `"users/<id>"` and `"groups/<id>"` it returns
`"group"` as well. -/
theorem getType_amended (id : String) :
    getType ("/users/" ++ id) = "user" ∧
    getType ("/groups/" ++ id) = "group" ∧
    getType ("users/" ++ id) = "group" ∧
    getType ("groups/" ++ id) = "group" := by
  refine ⟨?_, ?_, ?_, ?_⟩
  · show (if startsWithL "/users".data ("/users/" ++ id).data then "user" else "group") = "user"
    have : ("/users/" ++ id).data = '/' :: 'u' :: 's' :: 'e' :: 'r' :: 's' :: '/' ::id.data := by
      simp [String.data_append]
    rw [this]
    rfl
  · show (if startsWithL "/users".data ("/groups/" ++ id).data then "user" else "group") = "group"
    have : ("/groups/" ++ id).data = '/' :: 'g' :: 'r' :: 'o' :: 'u' :: 'p' :: 's' :: '/' ::id.data := by
      simp [String.data_append]
    rw [this]
    rfl
  · show (if startsWithL "/users".data ("users/" ++ id).data then "user" else "group") = "group"
    rw [data_users_append]
    rfl
  · show (if startsWithL "/users".data ("groups/" ++ id).data then "user" else "group") = "group"
    rw [data_groups_append]
    rfl

/-- `Store.remove` (src/index.ts lines 208-220), as a function of the
drop outcome reported by the driver (`dropErr = some msg` models
`dropScope` throwing). It returns the new `libraries` list and the
error propagated to the caller, if any.  The source throws *before*
reaching the `this.libraries = this.libraries.filter(...)` line when
`throwSyncErrors` is set, so in that branch the list is unchanged;
under the log policy the error is printed and the filter still runs. -/
def storeRemove (throwSyncErrors : Bool) (dropErr : Option String)
    (libraries : List String) ( user_or_group_prefix : String) :
    List String × Option String :=
  match dropErr with
  | none => (libraries.filter (fun prefx => prefx ≠ user_or_group_prefix), none)
  | some msg =>
    if throwSyncErrors then (libraries, some msg)
    else (libraries.filter (fun prefx => prefx ≠ user_or_group_prefix), none)

/-- The `libraries` bookkeeping of `Store.get` (src/index.ts lines
228-234): push the identifier if it is not yet present.  The push
happens before `library.init()` is awaited, so it is unconditional on
the init outcome. -/
def storeGetLibs (libraries : List String) ( user_or_group_prefix : String) :
    List String :=
  if user_or_group_prefix ∈ libraries then libraries
  else libraries ++ [ user_or_group_prefix]

/-- One `Store` operation touching the `libraries` registry: a `get`,
or a `remove` whose underlying `dropScope` outcome is `dropErr`. -/
inductive StoreOp where
  | getOp (id : String)
  | removeOp (id : String) (dropErr : Option String)
deriving DecidableEq

/-- Effect of one `Store` operation on the `libraries` list. -/
def storeStep (throwSyncErrors : Bool) (libraries : List String) :
    StoreOp → List String
  | .getOp id => storeGetLibs libraries id
  | .removeOp id dropErr => (storeRemove throwSyncErrors dropErr libraries id).1

/-- The `libraries` list after a sequence of `Store.get` / `Store.remove`
calls, starting from the empty list set up by the constructor
(src/index.ts line 155). -/
def runStore (throwSyncErrors : Bool) (ops : List StoreOp) : List String :=
  ops.foldl (storeStep throwSyncErrors) []

theorem storeStep_nodup (throwSyncErrors : Bool) (libraries : List String)
    (op : StoreOp) (h : libraries.Nodup) :
    (storeStep throwSyncErrors libraries op).Nodup := by
  cases op with
  | getOp id =>
    by_cases hm : id ∈ libraries
    · simpa [storeStep, storeGetLibs, hm] using h
    · have : (libraries ++ [id]).Nodup := by
        rw [List.nodup_append]
        exact ⟨h, List.nodup_singleton id, by
          intro a ha hb
          rw [List.mem_singleton] at hb
          exact hm (hb ▸ ha)⟩
      simpa [storeStep, storeGetLibs, hm] using this
  | removeOp id dropErr =>
    cases dropErr with
    | none => simpa [storeStep, storeRemove] using h.filter _
    | some msg =>
      by_cases ht : throwSyncErrors
      · simpa [storeStep, storeRemove, ht] using h
      · simpa [storeStep, storeRemove, ht] using h.filter _

theorem runStore_aux_nodup (throwSyncErrors : Bool) (ops : List StoreOp)
    (libraries : List String) (h : libraries.Nodup) :
    (ops.foldl (storeStep throwSyncErrors) libraries).Nodup := by
  induction ops generalizing libraries with
  | nil => simpa using h
  | cons op rest ih =>
    simpa using ih (storeStep throwSyncErrors libraries op)
      (storeStep_nodup throwSyncErrors libraries op h)

/-- C9: the `libraries` registry is an ordered duplicate-free sequence
maintained by every operation: after any sequence of `Store.get` and
`Store.remove` calls (with arbitrary drop outcomes and under either
error policy) each identifier occurs at most once; a `get` of an
identifier already present leaves the sequence unchanged; and a `get`
of a new identifier appends it at the end, so identifiers stand in the
order in which they were first registered. -/
theorem store_libraries_registry (throwSyncErrors : Bool) (ops : List StoreOp)
    (id : String) :
    (runStore throwSyncErrors ops).Nodup ∧
    (id ∈ runStore throwSyncErrors ops →
      storeGetLibs (runStore throwSyncErrors ops) id = runStore throwSyncErrors ops) ∧
    (id ∉ runStore throwSyncErrors ops →
      storeGetLibs (runStore throwSyncErrors ops) id
        = runStore throwSyncErrors ops ++ [id]) := by
  refine ⟨runStore_aux_nodup throwSyncErrors ops [] List.nodup_nil, ?_, ?_⟩
  · intro hm
    simp [storeGetLibs, hm]
  · intro hm
    simp [storeGetLibs, hm]

/-- Witness for C9 at a concrete call sequence: `get "users/1"`,
`get "groups/2"`, a failed `remove "users/1"` under the throw policy,
then a repeated `get "groups/2"`. -/
theorem store_libraries_registry_witness :
    runStore true [.getOp "users/1", .getOp "groups/2",
        .removeOp "users/1" (some "drop failed"), .getOp "groups/2"]
      = ["users/1", "groups/2"] ∧
    (runStore true [.getOp "users/1", .getOp "groups/2",
        .removeOp "users/1" (some "drop failed"), .getOp "groups/2"]).Nodup ∧
    storeGetLibs (runStore true [.getOp "users/1", .getOp "groups/2",
        .removeOp "users/1" (some "drop failed"), .getOp "groups/2"]) "groups/7"
      = ["users/1", "groups/2", "groups/7"] := by
  refine ⟨by decide, (store_libraries_registry true [.getOp "users/1",
    .getOp "groups/2", .removeOp "users/1" (some "drop failed"),
    .getOp "groups/2"] "groups/7").1, ?_⟩
  have h := (store_libraries_registry true [.getOp "users/1", .getOp "groups/2",
    .removeOp "users/1" (some "drop failed"), .getOp "groups/2"] "groups/7").2.2
    (by decide)
  rw [h]
  decide

/-- C1 counterexample: with the (default) throw policy and a failing
`dropScope`, `Store.remove "groups/42"` propagates the error before the
`libraries` filter runs, so `"groups/42"` is still in `Store.libraries`
afterwards — contradicting the claim that the identifier is absent
"even when the underlying drop fails, under both policies". -/
theorem store_remove_throw_counterexample :
    "groups/42" ∈ (storeRemove true (some "drop failed") ["groups/42"] "groups/42").1 ∧
    (storeRemove true (some "drop failed") ["groups/42"] "groups/42").2
      = some "drop failed" := by
  decide

/-- C1 (amended): `Store.remove` removes the identifier from the
known-library set whenever the drop succeeds, and, under the log
policy, also when the drop fails; only under the throw policy with a
failing drop does the error propagate before the update, leaving the
set unchanged. -/
theorem store_remove_updates_libraries (throwSyncErrors : Bool)
    (dropErr : Option String) (libraries : List String) (id : String)
    (h : throwSyncErrors = false ∨ dropErr = none) :
    id ∉ (storeRemove throwSyncErrors dropErr libraries id).1 ∧
    (storeRemove throwSyncErrors dropErr libraries id).2 = none := by
  have hfilter : id ∉ libraries.filter (fun prefx => prefx ≠ id) := by
    intro hm
    rcases List.mem_filter.mp hm with ⟨_, hdec⟩
    simp at hdec
  rcases h with h | h
  · cases dropErr with
    | none => exact ⟨by simp [storeRemove, hfilter], by simp [storeRemove]⟩
    | some msg =>
      subst h
      exact ⟨by simp [storeRemove, hfilter], by simp [storeRemove]⟩
  · subst h
    exact ⟨by simp [storeRemove, hfilter], by simp [storeRemove]⟩

/-- Witness for C1's amended theorem: a successful drop under the throw
policy removes `"groups/42"`, and a failing drop under the log policy
does too. -/
theorem store_remove_updates_libraries_witness :
    "groups/42" ∉ (storeRemove true none ["groups/42", "users/1"] "groups/42").1 ∧
    "groups/42" ∉ (storeRemove false (some "drop failed")
      ["groups/42", "users/1"] "groups/42").1 :=
  ⟨(store_remove_updates_libraries true none ["groups/42", "users/1"] "groups/42"
      (Or.inr rfl)).1,
   (store_remove_updates_libraries false (some "drop failed")
      ["groups/42", "users/1"] "groups/42" (Or.inl rfl)).1⟩

/-- Outcome of one `cbCollection.remove(key)` call as reported by the
driver: success, a "document not found" rejection, or any other
failure with its message. -/
inductive DelOutcome where
  | ok
  | notFound
  | fail (msg : String)
deriving DecidableEq

/-- Whether a delete outcome is a failure other than "document not
found" (the only kind the source does not mask). -/
def DelOutcome.isHardFail : DelOutcome → Bool
  | .fail _ => true
  | _ => false

/-- The key loop shared by `Library.remove` (src/index.ts lines
353-367) and `Library.remove_collections` (lines 317-331): for each
key issue a delete; a "document not found" rejection is swallowed; any
other failure is rethrown when `throwSyncErrors` is set — which
escapes the `for` loop — and logged otherwise.  Returns the keys whose
delete was actually issued and the error propagated to the caller, if
any. -/
def removeKeys (throwSyncErrors : Bool) (outcome : String → DelOutcome) :
    List String → List String × Option String
  | [] => ([], none)
  | key :: rest =>
    match outcome key with
    | .fail msg =>
      if throwSyncErrors then ([key], some msg)
      else
        let r := removeKeys throwSyncErrors outcome rest
        (key :: r.1, r.2)
    | _ =>
      let r := removeKeys throwSyncErrors outcome rest
      (key :: r.1, r.2)

theorem removeKeys_log (outcome : String → DelOutcome) (keys : List String) :
    removeKeys false outcome keys = (keys, none) := by
  induction keys with
  | nil => rfl
  | cons key rest ih =>
    cases h : outcome key with
    | ok => simp [removeKeys, h, ih]
    | notFound => simp [removeKeys, h, ih]
    | fail msg => simp [removeKeys, h, ih]

/-- C2 counterexample: under the (default) throw policy, a hard failure
while deleting `"A"` aborts the batch `["A", "B"]` — the delete of
`"B"` is never issued, contradicting the claim that remaining keys are
unaffected "under either error policy". -/
theorem remove_keys_abort_counterexample :
    removeKeys true (fun k => if k = "A" then .fail "boom" else .ok) ["A", "B"]
      = (["A"], some "boom") ∧
    "B" ∉ (removeKeys true (fun k => if k = "A" then .fail "boom" else .ok)
      ["A", "B"]).1 := by
  decide

/-- C2 (amended): under the log policy each key is handled
independently — every delete in the batch is issued and no error
propagates, whatever the per-key outcomes; "document not found"
rejections are treated as success and abort nothing under either
policy; only a hard failure under the throw policy aborts the
remaining keys. -/
theorem remove_keys_amended (outcome : String → DelOutcome) (keys : List String) :
    removeKeys false outcome keys = (keys, none) ∧
    ((∀ k ∈ keys, (outcome k).isHardFail = false) →
      removeKeys true outcome keys = (keys, none)) := by
  constructor
  · exact removeKeys_log outcome keys
  · intro hok
    induction keys with
    | nil => rfl
    | cons key rest ih =>
      have hkey := hok key (List.mem_cons_self key rest)
      have hrest := ih (fun k hk => hok k (List.mem_cons_of_mem key hk))
      cases h : outcome key with
      | ok => simp [removeKeys, h, hrest]
      | notFound => simp [removeKeys, h, hrest]
      | fail msg => rw [h] at hkey; exact absurd hkey (by simp [DelOutcome.isHardFail])

/-- Witness for C2's amended theorem: under the log policy a batch with
a hard failure on `"A"` still issues all three deletes without
propagating, and under the throw policy a batch whose only failure is
"document not found" completes as success. -/
theorem remove_keys_amended_witness :
    removeKeys false (fun k => if k = "A" then .fail "boom" else .ok)
      ["A", "B", "C"] = (["A", "B", "C"], none) ∧
    removeKeys true (fun k => if k = "B" then .notFound else .ok)
      ["A", "B", "C"] = (["A", "B", "C"], none) :=
  ⟨(remove_keys_amended (fun k => if k = "A" then .fail "boom" else .ok)
      ["A", "B", "C"]).1,
   (remove_keys_amended (fun k => if k = "B" then .notFound else .ok)
      ["A", "B", "C"]).2 (by decide)⟩

/-- The persisted state of a library's "meta" partition: the two
singleton documents `"name"` and `"version"` (src/index.ts lines
281-284 and 380-382 touch no other key of this partition). -/
structure MetaStore where
  nameDoc : Option String
  versionDoc : Option Nat
deriving DecidableEq

/-- `Library.save` (src/index.ts lines 376-383), as a function of the
two upsert outcomes reported by the driver (`some msg` models the
upsert rejecting).  An empty `name` is replaced by the configured
`userLibraryName`.  The body has **no** try/catch, so a rejection of
either upsert propagates to the caller whatever `throwSyncErrors` is —
the policy argument is deliberately unused, mirroring the source. -/
def saveRun (throwSyncErrors : Bool) (versionErr nameErr : Option String)
    (userLibraryName : String) (name : String) (version : Nat)
    (m : MetaStore) : Except String MetaStore :=
  let n := if name = "" then userLibraryName else name
  match versionErr with
  | some msg => Except.error msg
  | none =>
    let m1 : MetaStore := { m with versionDoc := some version }
    match nameErr with
    | some msg => Except.error msg
    | none => Except.ok { m1 with nameDoc := some n }

/-- The meta store produced by a successful `save`: both singleton
documents overwritten. -/
def savePure (userLibraryName : String) (name : String) (version : Nat) :
    MetaStore :=
  { nameDoc := some (if name = "" then userLibraryName else name),
    versionDoc := some version }

/-- Result of one `metaCollection.get(key)` call: the document's
content, a "document not found" rejection, or another failure. -/
inductive ReadRes (α : Type) where
  | found (v : α)
  | notFound
  | fail (msg : String)

/-- The metadata-loading tail of `Library.init` (src/index.ts lines
281-293): one `try` block reads `"name"` and then `"version"`; the
shared `catch` masks "document not found" and otherwise follows the
throw/log policy.  The fields start at their defaults `""` and `0`
(lines 243-244); an exception thrown by the `"name"` read skips the
`"version"` read entirely, and an exception thrown by the `"version"`
read leaves `name` already assigned.  Returns the resulting
`(name, version)` pair or the propagated error. -/
def initMetaLoad (throwSyncErrors : Bool) (nameRes : ReadRes String)
    (versionRes : ReadRes Nat) : Except String (String × Nat) :=
  match nameRes with
  | .found s =>
    match versionRes with
    | .found v => Except.ok (s, v)
    | .notFound => Except.ok (s, 0)
    | .fail msg => if throwSyncErrors then Except.error msg else Except.ok (s, 0)
  | .notFound => Except.ok ("", 0)
  | .fail msg => if throwSyncErrors then Except.error msg else Except.ok ("", 0)

/-- Reading the `"name"` singleton from a meta store: absent means the
driver rejects with "document not found". -/
def readNameDoc (m : MetaStore) : ReadRes String :=
  match m.nameDoc with
  | some s => .found s
  | none => .notFound

/-- Reading the `"version"` singleton from a meta store. -/
def readVersionDoc (m : MetaStore) : ReadRes Nat :=
  match m.versionDoc with
  | some v => .found v
  | none => .notFound

/-- Metadata loading of `Library.init` against a given meta store, when
the driver reads fail only by the document being absent. -/
def libraryInitMeta (throwSyncErrors : Bool) (m : MetaStore) :
    Except String (String × Nat) :=
  initMetaLoad throwSyncErrors (readNameDoc m) (readVersionDoc m)

/-- `Library.add` / `Library.add_collection` (src/index.ts lines
337-347 and 300-310), as a function of the upsert outcome: the single
upsert is wrapped in try/catch, so a failure is rethrown under the
throw policy and logged-and-swallowed under the log policy.  Returns
the resulting key-to-document map and the propagated error, if any. -/
def addRun (throwSyncErrors : Bool) (upsertErr : Option String)
    (docs : String → Option Nat) (key : String) (doc : Nat) :
    (String → Option Nat) × Option String :=
  match upsertErr with
  | none => (fun k => if k = key then some doc else docs k, none)
  | some msg => if throwSyncErrors then (docs, some msg) else (docs, none)

/-- C3 counterexample: with the log policy (`throwSyncErrors = false`),
a rejection of the `"version"` upsert inside `Library.save` still
propagates to the caller — `save` has no try/catch, so its write
failures are never logged-and-swallowed, contradicting the claim. -/
theorem save_log_policy_counterexample :
    saveRun false (some "upsert failed") none "User library" "Foo" 7
      ⟨none, none⟩ = Except.error "upsert failed" := by
  rfl

/-- C3 (amended): under the log policy a non-masked failure of the
policy-guarded write calls (`add`, `add_collection`, and each delete of
`remove` / `remove_collections`) is recorded and does not propagate;
but the two metadata upserts inside `Library.save` are not guarded by
the policy, and a rejection of either one propagates to the caller
under either policy. -/
theorem log_policy_guarded_writes_save_unguarded (msg userLibraryName name : String)
    (version doc : Nat) (docs : String → Option Nat) (key : String)
    (keys : List String) (m : MetaStore) :
    (addRun false (some msg) docs key doc).2 = none ∧
    (removeKeys false (fun _ => .fail msg) keys).2 = none ∧
    (∀ throwSyncErrors : Bool,
      saveRun throwSyncErrors (some msg) none userLibraryName name version m
        = Except.error msg) ∧
    (∀ throwSyncErrors : Bool,
      saveRun throwSyncErrors none (some msg) userLibraryName name version m
        = Except.error msg) := by
  refine ⟨rfl, by rw [removeKeys_log], ?_, ?_⟩
  · intro t; rfl
  · intro t; rfl

/-- C6: metadata round trip.  A successful `save(name, version)`
produces the meta store `savePure`, and re-running the metadata load of
`Library.init` against that store yields exactly the saved pair: the
saved `name` itself when it is non-empty, and the configured
`userLibraryName` when `name` was empty (the personal-library case),
together with the saved `version` — under either error policy on
either side. -/
theorem save_init_roundtrip (tpSave tpInit : Bool) (userLibraryName name : String)
    (version : Nat) (m : MetaStore) :
    saveRun tpSave none none userLibraryName name version m
      = Except.ok (savePure userLibraryName name version) ∧
    libraryInitMeta tpInit (savePure userLibraryName name version)
      = Except.ok ((if name = "" then userLibraryName else name), version) := by
  exact ⟨rfl, rfl⟩

/-- C10: the two metadata reads of `Library.init` share one `try` block:
when the `"name"` read rejects with "document not found", the
`"version"` read is never attempted, so the loaded pair is `("", 0)`
even when a `"version"` document exists; both fields are loaded exactly
when the `"name"` read succeeds and the `"version"` read succeeds. -/
theorem init_meta_name_gates_version (throwSyncErrors : Bool)
    (versionRes : ReadRes Nat) (s : String) (v : Nat) :
    initMetaLoad throwSyncErrors ReadRes.notFound versionRes = Except.ok ("", 0) ∧
    libraryInitMeta throwSyncErrors ⟨none, some v⟩ = Except.ok ("", 0) ∧
    initMetaLoad throwSyncErrors (ReadRes.found s) (ReadRes.found v)
      = Except.ok (s, v) := by
  exact ⟨rfl, rfl, rfl⟩

/-- One iteration of the partition-polling loop of `createCbCollection`
(src/index.ts lines 37-48), as observed from outside: the clock value
when `bucket.scope(..).collection(..)` is attempted, the handle that
attempt yields (`none` models the attempt throwing, which is only
logged), and the clock value after the unconditional 100 ms sleep that
follows the attempt.  `deadline` is `now + timeout` computed once
before the loop (line 37/47). -/
structure CollPollStep where
  attemptTime : Nat
  attempt : Option Nat
  timeAfterSleep : Nat
deriving DecidableEq

/-- The polling loop and epilogue of `createCbCollection` (src/index.ts
lines 38-54): `while (!collection && !isTimedOut) { try { collection =
await ... } catch ...; await sleep(100); isTimedOut = now > deadline }`
followed by `if (isTimedOut) throw Timeout; return collection`.  Note
the epilogue checks `isTimedOut` *first*, even when a handle was
obtained in the last iteration.  The trace of iterations is finite;
`none` means the trace ended while the loop was still running.  The
`Except.error "unreachable"` branch mirrors the `@ts-ignore` return:
the loop cannot exit with no handle and no timeout. -/
def collectionPollLoop (deadline : Nat) :
    Option Nat → Bool → List CollPollStep → Option (Except String Nat)
  | collection, isTimedOut, steps =>
    if collection = none ∧ isTimedOut = false then
      match steps with
      | [] => none
      | s :: rest =>
        collectionPollLoop deadline s.attempt
          (decide (deadline < s.timeAfterSleep)) rest
    else
      some (if isTimedOut then Except.error "timeout"
            else match collection with
                 | some c => Except.ok c
                 | none => Except.error "unreachable")

/-- C5: evaluation of `createCbCollection`'s polling loop at the failing
input.  With `timeout = 5000` (deadline at clock 5000) and a single
iteration whose handle attempt *succeeds* at clock 4900 — squarely
within the timeout — the 100 ms sleep carries the clock to 5001, the
post-sleep check sets `isTimedOut`, and the epilogue throws the timeout
error even though the live handle was obtained.  This contradicts the
claim (and the function's own doc comment, "Resolves with the
collection object once it has been created"): a successful attempt
within the timeout does not guarantee the step completes successfully. -/
theorem collection_poll_success_still_times_out :
    collectionPollLoop 5000 none false [⟨4900, some 1, 5001⟩]
      = some (Except.error "timeout") ∧
    (4900 ≤ 5000 ∧ (⟨4900, some 1, 5001⟩ : CollPollStep).attempt = some 1) :=
  ⟨rfl, by decide, rfl⟩

/-- One iteration of the index-online polling loop of
`createPrimaryIndex` (src/index.ts lines 78-91): whether the
`system:indexes` query reported the `#primary` index as `"online"`, and
the clock value after the 100 ms sleep taken when it did not. -/
structure IndexPollStep where
  online : Bool
  timeAfterSleep : Nat
deriving DecidableEq

/-- The index-online polling loop and epilogue of `createPrimaryIndex`
(src/index.ts lines 78-94): `while (!isTimedOut) { poll; if (online)
break; await sleep(100); isTimedOut = now > deadline }` followed by
`if (isTimedOut) throw Timeout`.  `deadline` is `now + timeout`
computed once before the loop.  The trace is finite; `none` means the
trace ended while the loop was still polling. -/
def indexPollLoop (deadline : Nat) :
    Bool → List IndexPollStep → Option (Except String Unit)
  | true, _ => some (Except.error "timeout")
  | false, [] => none
  | false, s :: rest =>
    if s.online then some (Except.ok ())
    else indexPollLoop deadline (decide (deadline < s.timeAfterSleep)) rest

/-- C7: when the store never reports the index as online, the polling
loop of `createPrimaryIndex` neither fails early nor loops forever: as
long as every post-sleep clock reading is still within the deadline the
loop keeps polling without raising any error, and as soon as the trace
contains a reading past the deadline (which the real clock, advancing
at least 100 ms per iteration, reaches after approximately the
configured timeout) the loop terminates with the timeout error. -/
theorem index_poll_timeout_contract (deadline : Nat) (steps : List IndexPollStep) :
    ((∀ s ∈ steps, s.online = false) →
      (∃ s ∈ steps, deadline < s.timeAfterSleep) →
        indexPollLoop deadline false steps = some (Except.error "timeout")) ∧
    ((∀ s ∈ steps, s.online = false ∧ s.timeAfterSleep ≤ deadline) →
      indexPollLoop deadline false steps = none) := by
  induction steps with
  | nil =>
    constructor
    · intro _ hex
      rcases hex with ⟨s, hs, _⟩
      exact absurd hs (List.not_mem_nil s)
    · intro _
      rfl
  | cons s rest ih =>
    constructor
    · intro hoff hex
      have hs : s.online = false := hoff s (List.mem_cons_self s rest)
      by_cases hlate : deadline < s.timeAfterSleep
      · have h1 : indexPollLoop deadline false (s :: rest)
            = indexPollLoop deadline true rest := by
          simp [indexPollLoop, hs, hlate]
        rw [h1]
        simp [indexPollLoop]
      · have h1 : indexPollLoop deadline false (s :: rest)
            = indexPollLoop deadline false rest := by
          simp [indexPollLoop, hs, hlate]
        rw [h1]
        have hrest : ∃ t ∈ rest, deadline < t.timeAfterSleep := by
          rcases hex with ⟨t, ht, htl⟩
          rcases List.mem_cons.mp ht with h | h
          · exact absurd (h ▸ htl) hlate
          · exact ⟨t, h, htl⟩
        exact ih.1 (fun t ht => hoff t (List.mem_cons_of_mem s ht)) hrest
    · intro hin
      have hs := hin s (List.mem_cons_self s rest)
      have h1 : indexPollLoop deadline false (s :: rest)
          = indexPollLoop deadline false rest := by
        simp [indexPollLoop, hs.1, Nat.not_lt.mpr hs.2]
      rw [h1]
      exact ih.2 (fun t ht => hin t (List.mem_cons_of_mem s ht))

/-- Witness for C7 on a concrete never-online trace with `timeout =
5000`: three in-deadline polls raise nothing, and the loop ends with
the timeout error on the trace whose fourth post-sleep reading passes
the deadline. -/
theorem index_poll_timeout_contract_witness :
    indexPollLoop 5000 false
      [⟨false, 150⟩, ⟨false, 2000⟩, ⟨false, 4900⟩] = none ∧
    indexPollLoop 5000 false
      [⟨false, 150⟩, ⟨false, 2000⟩, ⟨false, 4900⟩, ⟨false, 5050⟩]
      = some (Except.error "timeout") :=
  ⟨(index_poll_timeout_contract 5000
      [⟨false, 150⟩, ⟨false, 2000⟩, ⟨false, 4900⟩]).2 (by decide),
   (index_poll_timeout_contract 5000
      [⟨false, 150⟩, ⟨false, 2000⟩, ⟨false, 4900⟩, ⟨false, 5050⟩]).1
      (by decide) ⟨⟨false, 5050⟩, by decide, by decide⟩⟩

end ZoteroCouchbase
